import Mathlib

/-!
Shallow embedding of `src/python/beancount/query/query_env.py`: the column
accessors, the aggregate functions with their allocate/initialize/update/
finalize lifecycle, and the overload-resolution registries.

Python `Decimal`/numeric values are modelled as `ℚ`, Python `None` as the
`Value.vNone` constructor, the executor-owned store as a total function from
handles (`Nat`) to `Value`.
-/

namespace BQ

/-- A calendar date (`datetime.date`), only compared for equality here. -/
structure Date where
  year : Int
  month : Int
  day : Int
deriving DecidableEq, Repr

/-- `beancount.core.amount.Amount`: a number with a currency string. -/
structure Amount where
  number : ℚ
  currency : String
deriving DecidableEq, Repr

/-- A lot: a currency optionally tagged with an acquisition cost (`Amount`). -/
structure Lot where
  currency : String
  cost : Option Amount
deriving DecidableEq, Repr

/-- `beancount.core.position.Position`: a lot together with a number of units. -/
structure Position where
  lot : Lot
  number : ℚ
deriving DecidableEq, Repr

/-- `beancount.core.inventory.Inventory`: a collection of positions. -/
abbrev Inventory := List Position

/-- `beancount.core.data.Source`: file name and line number of a directive. -/
structure Source where
  filename : String
  lineno : Int
deriving DecidableEq, Repr

/-- The posting record as stored inside a transaction's `postings` list
(account, position, optional price, optional flag).  The Python `Posting`
namedtuple also carries a back-reference `entry` to its parent transaction;
that cyclic field is modelled separately by `Posting` below. -/
structure PostingLeg where
  account : String
  position : Position
  price : Option Amount
  flag : Option String
deriving DecidableEq, Repr

/-- `beancount.core.data.Transaction`: the directive owning postings. -/
structure Transaction where
  source : Source
  date : Date
  flag : String
  payee : Option String
  narration : Option String
  tags : Option (List String)
  links : Option (List String)
  postings : List PostingLeg
deriving DecidableEq, Repr

/-- A directive row context: either a `Transaction` or some other directive
kind (identified by its lowercased type name), which still carries a source
location and a date. -/
inductive Entry where
  | txn (t : Transaction)
  | other (typename : String) (source : Source) (date : Date)
deriving DecidableEq, Repr

/-- `entry.source`, defined for every directive kind. -/
def Entry.source : Entry → Source
  | .txn t => t.source
  | .other _ s _ => s

/-- `entry.date`, defined for every directive kind. -/
def Entry.date : Entry → Date
  | .txn t => t.date
  | .other _ _ d => d

/-- `isinstance(entry, Transaction)`. -/
def Entry.isTxn : Entry → Bool
  | .txn _ => true
  | .other _ _ _ => false

/-- The posting row context: a posting leg together with the back-reference
`entry` to its parent transaction (the `entry` field of the Python `Posting`
namedtuple). -/
structure Posting extends PostingLeg where
  entry : Transaction
deriving DecidableEq, Repr

/-- A runtime Python value as produced by evaluating a column or operand:
`vNone` models Python `None`, `vNum` the numeric types (`Decimal`), `vSet`
the string sets used for tags and links. -/
inductive Value where
  | vNone
  | vBool (b : Bool)
  | vInt (n : Int)
  | vNum (q : ℚ)
  | vStr (s : String)
  | vDate (d : Date)
  | vSet (elems : List String)
  | vAmount (a : Amount)
  | vPosition (p : Position)
  | vInventory (inv : Inventory)
deriving DecidableEq, Repr

/-- The executor-owned mutable store, keyed by allocated handles. -/
def Store := Nat → Value

/-- `store[handle] = v`: the single-slot write used by the aggregators. -/
def storeSet (store : Store) (handle : Nat) (v : Value) : Store :=
  fun j => if j = handle then v else store j

/-- `store[handle] += 1` on the integer slot of `Count` (any other shape
would raise in Python and is left unchanged here). -/
def vIncr : Value → Value
  | .vInt n => .vInt (n + 1)
  | v => v

/-- `store[handle] += value`: numeric addition on matching numeric shapes
(anything else would raise in Python and is left unchanged here). -/
def valueAdd : Value → Value → Value
  | .vInt a, .vInt b => .vInt (a + b)
  | .vNum a, .vNum b => .vNum (a + b)
  | a, _ => a

/-- Python `value < slot` on the ordered value shapes used by `Min`. -/
def valueLt : Value → Value → Bool
  | .vInt a, .vInt b => a < b
  | .vNum a, .vNum b => a < b
  | .vStr a, .vStr b => a < b
  | _, _ => false

/-- Python `value > slot` on the ordered value shapes used by `Max`. -/
def valueGt : Value → Value → Bool
  | .vInt a, .vInt b => b < a
  | .vNum a, .vNum b => b < a
  | .vStr a, .vStr b => b < a
  | _, _ => false

namespace Count

/-- `Count.initialize`: `store[self.handle] = 0`. -/
def init (handle : Nat) (store : Store) : Store :=
  storeSet store handle (.vInt 0)

/-- `Count.update`: `store[self.handle] += 1`, ignoring the row context. -/
def update (handle : Nat) (store : Store) (_v : Value) : Store :=
  storeSet store handle (vIncr (store handle))

/-- `Count.finalize`: return `store[self.handle]`, leaving the store as is. -/
def finalize (handle : Nat) (store : Store) : Value × Store :=
  (store handle, store)

end Count

namespace Sum

/-- `Sum.initialize`: `store[self.handle] = self.dtype()`; `dz` is the value
produced by calling the operand's type with no arguments (its zero). -/
def init (dz : Value) (handle : Nat) (store : Store) : Store :=
  storeSet store handle dz

/-- `Sum.update`: evaluate the operand on the row and add it into the slot,
`store[self.handle] += value`. -/
def update (handle : Nat) (store : Store) (v : Value) : Store :=
  storeSet store handle (valueAdd (store handle) v)

/-- `Sum.finalize`: return `store[self.handle]`, leaving the store as is. -/
def finalize (handle : Nat) (store : Store) : Value × Store :=
  (store handle, store)

end Sum

/-- Modelled from the spec: `Inventory.add_position` of
`beancount.core.inventory` (that module is not among the sources), the
lot-aware merge — add the number into the existing position with the same
lot, or append a new position. -/
def invAddPosition (inv : Inventory) (p : Position) : Inventory :=
  if inv.any (fun q => q.lot = p.lot) then
    inv.map (fun q => if q.lot = p.lot then { q with number := q.number + p.number } else q)
  else
    inv ++ [p]

/-- Modelled from the spec: `Inventory.add_amount` of
`beancount.core.inventory` — merge an amount as a costless position. -/
def invAddAmount (inv : Inventory) (a : Amount) : Inventory :=
  invAddPosition inv ⟨⟨a.currency, none⟩, a.number⟩

/-- Modelled from the spec: `Inventory.add_inventory` of
`beancount.core.inventory` — merge every position of the other inventory. -/
def invAddInventory (inv other : Inventory) : Inventory :=
  other.foldl invAddPosition inv

namespace SumBase

/-- `SumBase.initialize`: `store[self.handle] = inventory.Inventory()`. -/
def init (handle : Nat) (store : Store) : Store :=
  storeSet store handle (.vInventory [])

/-- `SumBase.finalize`: return `store[self.handle]`, leaving the store as is. -/
def finalize (handle : Nat) (store : Store) : Value × Store :=
  (store handle, store)

end SumBase

namespace SumAmount

/-- `SumAmount.update`: `store[self.handle].add_amount(value)` (a slot or
value of any other shape would raise in Python; it is left unchanged here). -/
def update (handle : Nat) (store : Store) (v : Value) : Store :=
  storeSet store handle
    (match store handle, v with
      | .vInventory inv, .vAmount a => .vInventory (invAddAmount inv a)
      | s, _ => s)

end SumAmount

namespace SumPosition

/-- `SumPosition.update`: `store[self.handle].add_position(value)`. -/
def update (handle : Nat) (store : Store) (v : Value) : Store :=
  storeSet store handle
    (match store handle, v with
      | .vInventory inv, .vPosition p => .vInventory (invAddPosition inv p)
      | s, _ => s)

end SumPosition

namespace SumInventory

/-- `SumInventory.update`: `store[self.handle].add_inventory(value)`. -/
def update (handle : Nat) (store : Store) (v : Value) : Store :=
  storeSet store handle
    (match store handle, v with
      | .vInventory inv, .vInventory other => .vInventory (invAddInventory inv other)
      | s, _ => s)

end SumInventory

namespace First

/-- `First.initialize`: `store[self.handle] = None`. -/
def init (handle : Nat) (store : Store) : Store :=
  storeSet store handle .vNone

/-- `First.update`: only when the slot is still `None`, evaluate the operand
and write it (`if store[self.handle] is None: store[self.handle] = value`). -/
def update (handle : Nat) (store : Store) (v : Value) : Store :=
  if store handle = .vNone then storeSet store handle v else store

/-- `First.finalize`: return `store[self.handle]`, leaving the store as is. -/
def finalize (handle : Nat) (store : Store) : Value × Store :=
  (store handle, store)

end First

namespace Last

/-- `Last.initialize`: `store[self.handle] = None`. -/
def init (handle : Nat) (store : Store) : Store :=
  storeSet store handle .vNone

/-- `Last.update`: always overwrite, `store[self.handle] = value`. -/
def update (handle : Nat) (store : Store) (v : Value) : Store :=
  storeSet store handle v

/-- `Last.finalize`: return `store[self.handle]`, leaving the store as is. -/
def finalize (handle : Nat) (store : Store) : Value × Store :=
  (store handle, store)

end Last

namespace Min

/-- `Min.initialize`: `store[self.handle] = self.dtype()`; `dz` is the zero
of the operand's type. -/
def init (dz : Value) (handle : Nat) (store : Store) : Store :=
  storeSet store handle dz

/-- `Min.update`: `if value < store[self.handle]: store[self.handle] = value`. -/
def update (handle : Nat) (store : Store) (v : Value) : Store :=
  if valueLt v (store handle) then storeSet store handle v else store

/-- `Min.finalize`: return `store[self.handle]`, leaving the store as is. -/
def finalize (handle : Nat) (store : Store) : Value × Store :=
  (store handle, store)

end Min

namespace Max

/-- `Max.initialize`: `store[self.handle] = self.dtype()`; `dz` is the zero
of the operand's type. -/
def init (dz : Value) (handle : Nat) (store : Store) : Store :=
  storeSet store handle dz

/-- `Max.update`: `if value > store[self.handle]: store[self.handle] = value`. -/
def update (handle : Nat) (store : Store) (v : Value) : Store :=
  if valueGt v (store handle) then storeSet store handle v else store

/-- `Max.finalize`: return `store[self.handle]`, leaving the store as is. -/
def finalize (handle : Nat) (store : Store) : Value × Store :=
  (store handle, store)

end Max

/-- The nine aggregator classes of the module, as an enumeration. -/
inductive AggKind where
  | count | sum | sumAmount | sumPosition | sumInventory
  | first | last | min | max
deriving DecidableEq, Repr

/-- Dispatch `initialize` over the aggregator kinds; `dz` is the value
`self.dtype()` for the kinds that seed the slot with it. -/
def aggInit : AggKind → Value → Nat → Store → Store
  | .count, _, handle, store => Count.init handle store
  | .sum, dz, handle, store => Sum.init dz handle store
  | .sumAmount, _, handle, store => SumBase.init handle store
  | .sumPosition, _, handle, store => SumBase.init handle store
  | .sumInventory, _, handle, store => SumBase.init handle store
  | .first, _, handle, store => First.init handle store
  | .last, _, handle, store => Last.init handle store
  | .min, dz, handle, store => Min.init dz handle store
  | .max, dz, handle, store => Max.init dz handle store

/-- Dispatch `update` over the aggregator kinds; `v` is the row's evaluated
operand value. -/
def aggUpdate : AggKind → Nat → Store → Value → Store
  | .count, handle, store, v => Count.update handle store v
  | .sum, handle, store, v => Sum.update handle store v
  | .sumAmount, handle, store, v => SumAmount.update handle store v
  | .sumPosition, handle, store, v => SumPosition.update handle store v
  | .sumInventory, handle, store, v => SumInventory.update handle store v
  | .first, handle, store, v => First.update handle store v
  | .last, handle, store, v => Last.update handle store v
  | .min, handle, store, v => Min.update handle store v
  | .max, handle, store, v => Max.update handle store v

/-- Dispatch `finalize` over the aggregator kinds: every class returns
`store[self.handle]` and leaves the store untouched. -/
def aggFinalize : AggKind → Nat → Store → Value × Store
  | .count, handle, store => Count.finalize handle store
  | .sum, handle, store => Sum.finalize handle store
  | .sumAmount, handle, store => SumBase.finalize handle store
  | .sumPosition, handle, store => SumBase.finalize handle store
  | .sumInventory, handle, store => SumBase.finalize handle store
  | .first, handle, store => First.finalize handle store
  | .last, handle, store => Last.finalize handle store
  | .min, handle, store => Min.finalize handle store
  | .max, handle, store => Max.finalize handle store

/-- Fold a group's row values through an aggregator's `update`, in arrival
order (the executor calls `update` once per row). -/
def runUpdates (k : AggKind) (handle : Nat) (vs : List Value) (store : Store) : Store :=
  vs.foldl (fun s v => aggUpdate k handle s v) store

/-- Modelled from the spec: `hash_entry` from `beancount.core.compare` (not
among the sources), the "unique id of a directive".  Its exact digest is
irrelevant to the claims about this module; what matters is that the
entry-scoped and posting-scoped id accessors apply the same function to the
same entry, so any concrete encoding of the directive serves. -/
def hash_entry : Entry → String
  | .txn t => "transaction:" ++ t.source.filename ++ ":" ++ toString t.source.lineno
  | .other name s _ => name ++ ":" ++ s.filename ++ ":" ++ toString s.lineno

/-- `type(entry).__name__.lower()` for a directive. -/
def entryTypeName : Entry → String
  | .txn _ => "transaction"
  | .other name _ _ => name

/-- An optional Python string as a runtime value: `None` stays `None`. -/
def optStrValue : Option String → Value
  | none => .vNone
  | some s => .vStr s

/-- Python `x or ''` on an optional string: `None` (and `''` itself) becomes
`''`. -/
def orEmptyString (x : Option String) : String := x.getD ""

/-- Python `x or EMPTY_SET` on an optional tag/link set: `None` (and the
empty set itself) becomes the empty set. -/
def orEmptySet (x : Option (List String)) : List String := x.getD []

/-- `IdEntryColumn`: `hash_entry(entry)`. -/
def IdEntryColumn (entry : Entry) : Value := .vStr (hash_entry entry)

/-- `TypeEntryColumn`: `type(entry).__name__.lower()`. -/
def TypeEntryColumn (entry : Entry) : Value := .vStr (entryTypeName entry)

/-- `FilenameEntryColumn`: `entry.source.filename`. -/
def FilenameEntryColumn (entry : Entry) : Value := .vStr entry.source.filename

/-- `LineNoEntryColumn`: `entry.source.lineno`. -/
def LineNoEntryColumn (entry : Entry) : Value := .vInt entry.source.lineno

/-- `DateEntryColumn`: `entry.date`. -/
def DateEntryColumn (entry : Entry) : Value := .vDate entry.date

/-- `FlagEntryColumn`: `entry.flag if isinstance(entry, Transaction) else None`. -/
def FlagEntryColumn : Entry → Value
  | .txn t => .vStr t.flag
  | .other _ _ _ => .vNone

/-- `PayeeEntryColumn`: `entry.payee or '' if isinstance(entry, Transaction)
else None`. -/
def PayeeEntryColumn : Entry → Value
  | .txn t => .vStr (orEmptyString t.payee)
  | .other _ _ _ => .vNone

/-- `NarrationEntryColumn`: `entry.narration or '' if isinstance(entry,
Transaction) else None`. -/
def NarrationEntryColumn : Entry → Value
  | .txn t => .vStr (orEmptyString t.narration)
  | .other _ _ _ => .vNone

/-- `TagsEntryColumn`: `entry.tags or EMPTY_SET if isinstance(entry,
Transaction) else EMPTY_SET`. -/
def TagsEntryColumn : Entry → Value
  | .txn t => .vSet (orEmptySet t.tags)
  | .other _ _ _ => .vSet []

/-- `LinksEntryColumn`: `entry.links or EMPTY_SET if isinstance(entry,
Transaction) else EMPTY_SET`. -/
def LinksEntryColumn : Entry → Value
  | .txn t => .vSet (orEmptySet t.links)
  | .other _ _ _ => .vSet []

/-- `IdColumn`: `hash_entry(posting.entry)`. -/
def IdColumn (posting : Posting) : Value := .vStr (hash_entry (.txn posting.entry))

/-- `TypeColumn`: `type(posting.entry).__name__.lower()`. -/
def TypeColumn (posting : Posting) : Value := .vStr (entryTypeName (.txn posting.entry))

/-- `FilenameColumn`: `posting.entry.source.filename`. -/
def FilenameColumn (posting : Posting) : Value := .vStr posting.entry.source.filename

/-- `LineNoColumn`: `posting.entry.source.lineno`. -/
def LineNoColumn (posting : Posting) : Value := .vInt posting.entry.source.lineno

/-- `DateColumn`: `posting.entry.date`. -/
def DateColumn (posting : Posting) : Value := .vDate posting.entry.date

/-- `FlagColumn`: `posting.entry.flag`. -/
def FlagColumn (posting : Posting) : Value := .vStr posting.entry.flag

/-- `PayeeColumn`: `posting.entry.payee or ''`. -/
def PayeeColumn (posting : Posting) : Value := .vStr (orEmptyString posting.entry.payee)

/-- `NarrationColumn`: `posting.entry.narration` — note: no `or ''` guard
here, in contrast with `PayeeColumn` and `NarrationEntryColumn`. -/
def NarrationColumn (posting : Posting) : Value := optStrValue posting.entry.narration

/-- `TagsColumn`: `posting.entry.tags or EMPTY_SET`. -/
def TagsColumn (posting : Posting) : Value := .vSet (orEmptySet posting.entry.tags)

/-- `LinksColumn`: `posting.entry.links or EMPTY_SET`. -/
def LinksColumn (posting : Posting) : Value := .vSet (orEmptySet posting.entry.links)

/-- `PostingFlagColumn`: `posting.flag`. -/
def PostingFlagColumn (posting : Posting) : Value := optStrValue posting.flag

/-- `AccountColumn`: `posting.account`. -/
def AccountColumn (posting : Posting) : Value := .vStr posting.account

/-- `NumberColumn`: `posting.position.number`. -/
def NumberColumn (posting : Posting) : Value := .vNum posting.position.number

/-- `CurrencyColumn`: `posting.position.lot.currency`. -/
def CurrencyColumn (posting : Posting) : Value := .vStr posting.position.lot.currency

/-- `CostNumberColumn`: `posting.position.lot.cost.number if
posting.position.lot.cost else ZERO`. -/
def CostNumberColumn (posting : Posting) : Value :=
  match posting.position.lot.cost with
  | some c => .vNum c.number
  | none => .vNum 0

/-- `CostCurrencyColumn`: `posting.position.lot.cost.currency if
posting.position.lot.cost else ''`. -/
def CostCurrencyColumn (posting : Posting) : Value :=
  match posting.position.lot.cost with
  | some c => .vStr c.currency
  | none => .vStr ""

/-- `ChangeColumn`: `posting.position`. -/
def ChangeColumn (posting : Posting) : Value := .vPosition posting.position

/-- The characters of a string, lowercased. -/
def lowerChars (s : String) : List Char :=
  s.toList.map Char.toLower

/-- Case-insensitive search.  Modelled from the spec: Python
`re.compile(pattern, re.IGNORECASE).search(text)` (the regular-expression
engine is outside the sources), restricted to literal patterns — a
case-insensitive substring test. -/
def searchIgnoreCase (pat text : String) : Bool :=
  let p := lowerChars pat
  let t := lowerChars text
  (List.range (t.length + 1)).any (fun i => p.isPrefixOf (t.drop i))

/-- `MatchAccount.__call__`: on a non-`Transaction` context return `False`
before the operand is ever evaluated; on a `Transaction`, evaluate the
operand to a pattern and test whether any posting's account matches it
case-insensitively.  `operandEval` is the evaluation of the single operand
node against the row context. -/
def MatchAccount (operandEval : Entry → String) (entry : Entry) : Bool :=
  match entry with
  | .other _ _ _ => false
  | .txn t =>
      let pattern := operandEval entry
      t.postings.any (fun posting => searchIgnoreCase pattern posting.account)

/-- The static output/operand types (`dtype`) used by the registries: Python
`int`, the numeric `Decimal`/`float` family, `str`, `bool`, `datetime.date`,
`set`, and the domain types `Amount`, `Position`, `Inventory`. -/
inductive DType where
  | tInt | tNum | tStr | tBool | tDate | tSet | tAmount | tPosition | tInventory
deriving DecidableEq, Repr

/-- The node constructors registered in the module's function tables. -/
inductive FnCtor where
  | ctorStr | ctorLength | ctorParent
  | ctorUnitsPosition | ctorCostPosition
  | ctorYear | ctorMonth | ctorDay | ctorWeekday
  | ctorMatchAccount
  | ctorCount | ctorSum | ctorSumAmount | ctorSumPosition | ctorSumInventory
  | ctorFirst | ctorLast | ctorMin | ctorMax
deriving DecidableEq, Repr

/-- A registry key: either a bare function name, or a name qualified by the
static type of the first operand (the Python dict keys `'sum'` and
`('sum', amount.Amount)`). -/
inductive FuncKey where
  | bare (name : String)
  | typed (name : String) (ty : DType)
deriving DecidableEq, Repr

/-- `SIMPLE_FUNCTIONS`: the scalar-function registry. -/
def SIMPLE_FUNCTIONS : List (FuncKey × FnCtor) :=
  [(.bare "str", .ctorStr),
   (.bare "length", .ctorLength),
   (.bare "parent", .ctorParent),
   (.typed "units" .tPosition, .ctorUnitsPosition),
   (.typed "cost" .tPosition, .ctorCostPosition),
   (.bare "year", .ctorYear),
   (.bare "month", .ctorMonth),
   (.bare "day", .ctorDay),
   (.bare "weekday", .ctorWeekday)]

/-- `AGGREGATOR_FUNCTIONS`: the aggregate-function registry, with the three
type-qualified `sum` overloads and the bare-name entries. -/
def AGGREGATOR_FUNCTIONS : List (FuncKey × FnCtor) :=
  [(.typed "sum" .tAmount, .ctorSumAmount),
   (.typed "sum" .tPosition, .ctorSumPosition),
   (.typed "sum" .tInventory, .ctorSumInventory),
   (.bare "sum", .ctorSum),
   (.bare "count", .ctorCount),
   (.bare "first", .ctorFirst),
   (.bare "last", .ctorLast),
   (.bare "min", .ctorMin),
   (.bare "max", .ctorMax)]

/-- `ENTRY_FUNCTIONS`: functions defined only on entries. -/
def ENTRY_FUNCTIONS : List (FuncKey × FnCtor) :=
  [(.bare "has_account", .ctorMatchAccount)]

/-- `FilterEntriesEnvironment.functions = SIMPLE_FUNCTIONS ∪ ENTRY_FUNCTIONS`. -/
def entriesEnvFunctions : List (FuncKey × FnCtor) :=
  SIMPLE_FUNCTIONS ++ ENTRY_FUNCTIONS

/-- `FilterPostingsEnvironment.functions = SIMPLE_FUNCTIONS`. -/
def postingsEnvFunctions : List (FuncKey × FnCtor) :=
  SIMPLE_FUNCTIONS

/-- `TargetsEnvironment.functions = FilterPostingsEnvironment.functions ∪
AGGREGATOR_FUNCTIONS`. -/
def targetsEnvFunctions : List (FuncKey × FnCtor) :=
  postingsEnvFunctions ++ AGGREGATOR_FUNCTIONS

/-- Registry lookup by exact key (last binding wins, as for a Python dict
built by successive updates; the tables above bind every key once). -/
def lookupKey (registry : List (FuncKey × FnCtor)) (key : FuncKey) : Option FnCtor :=
  match registry.reverse.find? (fun e => e.1 = key) with
  | some e => some e.2
  | none => none

/-- Modelled from the spec: the overload-resolution algorithm of the
compilation environments (it lives in `query_compile.py`, which is not among
the sources): first attempt the compound key `(name, type of the first
operand)`, and if that is absent fall back to the bare `name`. -/
def resolveFunction (registry : List (FuncKey × FnCtor)) (name : String)
    (ty : DType) : Option FnCtor :=
  match lookupKey registry (.typed name ty) with
  | some ctor => some ctor
  | none => lookupKey registry (.bare name)

/-- The output type each constructor's `__init__` fixes on the node, as a
function of the first operand's static type: `Count` always yields `int`;
the `SumBase` subclasses always yield `Inventory`; `Sum`, `First`, `Last`,
`Min` and `Max` copy `operands[0].dtype`; the scalar constructors fix the
types shown in their `__init__`. -/
def ctorOutputType : FnCtor → DType → DType
  | .ctorStr, _ => .tStr
  | .ctorLength, _ => .tInt
  | .ctorParent, _ => .tStr
  | .ctorUnitsPosition, _ => .tAmount
  | .ctorCostPosition, _ => .tAmount
  | .ctorYear, _ => .tInt
  | .ctorMonth, _ => .tInt
  | .ctorDay, _ => .tInt
  | .ctorWeekday, _ => .tStr
  | .ctorMatchAccount, _ => .tBool
  | .ctorCount, _ => .tInt
  | .ctorSum, ty => ty
  | .ctorSumAmount, _ => .tInventory
  | .ctorSumPosition, _ => .tInventory
  | .ctorSumInventory, _ => .tInventory
  | .ctorFirst, ty => ty
  | .ctorLast, ty => ty
  | .ctorMin, ty => ty
  | .ctorMax, ty => ty

/-- `Sum.__intypes__ = [(int, float, Decimal)]`: the numeric types accepted
by the generic `sum`. -/
def sumIntypes : DType → Bool
  | .tInt => true
  | .tNum => true
  | _ => false

/-- A store with no slot written yet. -/
def emptyStore : Store := fun _ => .vNone

/-- A concrete source location for the example directives. -/
def sampleSource : Source := ⟨"ledger.beancount", 42⟩

/-- A concrete date for the example directives. -/
def sampleDate : Date := ⟨2014, 3, 10⟩

/-- A transaction whose optional payee, narration, tags and links are all
absent (`None`). -/
def txnAbsentFields : Transaction :=
  ⟨sampleSource, sampleDate, "*", none, none, none, none,
   [⟨"Assets:Cash", ⟨⟨"USD", none⟩, 100⟩, none, none⟩]⟩

/-- A posting of `txnAbsentFields`, whose position carries no cost. -/
def postingAbsentFields : Posting :=
  ⟨⟨"Assets:Cash", ⟨⟨"USD", none⟩, 100⟩, none, none⟩, txnAbsentFields⟩

/-- A transaction with every optional field present. -/
def txnFullFields : Transaction :=
  ⟨sampleSource, sampleDate, "*", some "Corner store", some "Groceries",
   some ["trip"], some ["receipt"],
   [⟨"Expenses:Food", ⟨⟨"USD", some ⟨2, "EUR"⟩⟩, 5⟩, none, none⟩]⟩

/-- A posting of `txnFullFields`, whose position carries a cost. -/
def postingFullFields : Posting :=
  ⟨⟨"Expenses:Food", ⟨⟨"USD", some ⟨2, "EUR"⟩⟩, 5⟩, none, none⟩, txnFullFields⟩

/-! ## Helper lemmas -/

@[simp] theorem storeSet_self (store : Store) (handle : Nat) (v : Value) :
    storeSet store handle v handle = v := by
  simp [storeSet]

@[simp] theorem storeSet_other (store : Store) (handle j : Nat) (v : Value)
    (hj : j ≠ handle) : storeSet store handle v j = store j := by
  simp [storeSet, hj]

theorem runUpdates_cons (k : AggKind) (handle : Nat) (v : Value) (vs : List Value)
    (s : Store) :
    runUpdates k handle (v :: vs) s = runUpdates k handle vs (aggUpdate k handle s v) := rfl

theorem count_run_slot (vs : List Value) : ∀ (s : Store) (handle : Nat) (n : Int),
    s handle = .vInt n →
    runUpdates .count handle vs s handle = .vInt (n + vs.length) := by
  induction vs with
  | nil =>
      intro s handle n hn
      simpa [runUpdates] using hn
  | cons v rest ih =>
      intro s handle n hn
      have hslot : Count.update handle s v handle = .vInt (n + 1) := by
        simp [Count.update, aggUpdate, hn, vIncr]
      rw [runUpdates_cons, ih _ handle (n + 1) (by simpa [aggUpdate] using hslot)]
      congr 1
      simp only [List.length_cons]
      push_cast
      ring

theorem sum_run_slot (qs : List ℚ) : ∀ (s : Store) (handle : Nat) (c : ℚ),
    s handle = .vNum c →
    runUpdates .sum handle (qs.map .vNum) s handle = .vNum (c + qs.sum) := by
  induction qs with
  | nil =>
      intro s handle c hc
      simpa [runUpdates] using hc
  | cons q rest ih =>
      intro s handle c hc
      have hslot : aggUpdate .sum handle s (.vNum q) handle = .vNum (c + q) := by
        simp [aggUpdate, Sum.update, hc, valueAdd]
      rw [List.map_cons, runUpdates_cons, ih _ handle (c + q) hslot]
      congr 1
      simp only [List.sum_cons]
      ring

theorem min_run_slot (qs : List ℚ) : ∀ (s : Store) (handle : Nat) (c : ℚ),
    s handle = .vNum c →
    runUpdates .min handle (qs.map .vNum) s handle = .vNum (qs.foldl min c) := by
  induction qs with
  | nil =>
      intro s handle c hc
      simpa [runUpdates] using hc
  | cons q rest ih =>
      intro s handle c hc
      have hslot : aggUpdate .min handle s (.vNum q) handle = .vNum (min c q) := by
        simp only [aggUpdate, Min.update, hc, valueLt]
        by_cases hlt : q < c
        · simp [hlt, min_eq_right (le_of_lt hlt)]
        · simp [hlt, hc, min_eq_left (le_of_not_lt hlt)]
      rw [List.map_cons, runUpdates_cons, ih _ handle (min c q) hslot]
      rfl

theorem max_run_slot (qs : List ℚ) : ∀ (s : Store) (handle : Nat) (c : ℚ),
    s handle = .vNum c →
    runUpdates .max handle (qs.map .vNum) s handle = .vNum (qs.foldl max c) := by
  induction qs with
  | nil =>
      intro s handle c hc
      simpa [runUpdates] using hc
  | cons q rest ih =>
      intro s handle c hc
      have hslot : aggUpdate .max handle s (.vNum q) handle = .vNum (max c q) := by
        simp only [aggUpdate, Max.update, hc, valueGt]
        by_cases hlt : c < q
        · simp [hlt, max_eq_right (le_of_lt hlt)]
        · simp [hlt, hc, max_eq_left (le_of_not_lt hlt)]
      rw [List.map_cons, runUpdates_cons, ih _ handle (max c q) hslot]
      rfl

theorem first_run_unchanged (vs : List Value) : ∀ (s : Store) (handle : Nat),
    s handle ≠ .vNone → runUpdates .first handle vs s = s := by
  induction vs with
  | nil => intro s handle _; rfl
  | cons v rest ih =>
      intro s handle h
      have hupd : aggUpdate .first handle s v = s := by
        simp [aggUpdate, First.update, h]
      rw [runUpdates_cons, hupd]
      exact ih s handle h

theorem last_run_slot (vs : List Value) : ∀ (s : Store) (handle : Nat),
    runUpdates .last handle vs s handle = vs.getLastD (s handle) := by
  induction vs with
  | nil => intro s handle; rfl
  | cons v rest ih =>
      intro s handle
      rw [runUpdates_cons, ih]
      have hslot : (aggUpdate .last handle s v) handle = v := by
        simp [aggUpdate, Last.update]
      rw [hslot, List.getLastD_cons]

theorem foldl_min_le_init {α : Type} [LinearOrder α] (qs : List α) :
    ∀ c : α, qs.foldl min c ≤ c := by
  induction qs with
  | nil => intro c; exact le_refl c
  | cons q rest ih =>
      intro c
      exact le_trans (ih (min c q)) (min_le_left c q)

theorem foldl_min_le_mem {α : Type} [LinearOrder α] (qs : List α) :
    ∀ (c q : α), q ∈ qs → qs.foldl min c ≤ q := by
  induction qs with
  | nil => intro c q hq; cases hq
  | cons x rest ih =>
      intro c q hq
      rcases List.mem_cons.mp hq with h | h
      · subst h
        exact le_trans (foldl_min_le_init rest (min c q)) (min_le_right c q)
      · exact ih (min c x) q h

theorem foldl_min_eq_or_mem {α : Type} [LinearOrder α] (qs : List α) :
    ∀ c : α, qs.foldl min c = c ∨ qs.foldl min c ∈ qs := by
  induction qs with
  | nil => intro c; exact Or.inl rfl
  | cons x rest ih =>
      intro c
      rcases ih (min c x) with h | h
      · rcases min_choice c x with hc | hc
        · exact Or.inl (by rw [List.foldl_cons, h, hc])
        · exact Or.inr (by rw [List.foldl_cons, h, hc]; exact List.mem_cons_self x rest)
      · exact Or.inr (List.mem_cons_of_mem x h)

theorem foldl_max_init_le {α : Type} [LinearOrder α] (qs : List α) :
    ∀ c : α, c ≤ qs.foldl max c := by
  induction qs with
  | nil => intro c; exact le_refl c
  | cons q rest ih =>
      intro c
      exact le_trans (le_max_left c q) (ih (max c q))

theorem foldl_max_mem_le {α : Type} [LinearOrder α] (qs : List α) :
    ∀ (c q : α), q ∈ qs → q ≤ qs.foldl max c := by
  induction qs with
  | nil => intro c q hq; cases hq
  | cons x rest ih =>
      intro c q hq
      rcases List.mem_cons.mp hq with h | h
      · subst h
        exact le_trans (le_max_right c q) (foldl_max_init_le rest (max c q))
      · exact ih (max c x) q h

theorem foldl_max_eq_or_mem {α : Type} [LinearOrder α] (qs : List α) :
    ∀ c : α, qs.foldl max c = c ∨ qs.foldl max c ∈ qs := by
  induction qs with
  | nil => intro c; exact Or.inl rfl
  | cons x rest ih =>
      intro c
      rcases ih (max c x) with h | h
      · rcases max_choice c x with hc | hc
        · exact Or.inl (by rw [List.foldl_cons, h, hc])
        · exact Or.inr (by rw [List.foldl_cons, h, hc]; exact List.mem_cons_self x rest)
      · exact Or.inr (List.mem_cons_of_mem x h)

/-! ## Claim theorems -/

/-- C1: for the `Min` and `Max` aggregators, `initialize` writes the operand
type's zero/neutral element `dtype()` into the store slot, and after any
sequence of numeric updates `v1..vn` `finalize` returns the minimum (resp.
maximum) of the set `{dtype(), v1, ..., vn}` — here witnessed by: the
finalized value is the fold of `min` (resp. `max`) seeded at numeric zero,
which is a lower (upper) bound of the seed and of every updated value and is
itself the seed or one of the values; in particular for the rows 10, 20, 5,
`Max` finalizes to 20 and `Min` finalizes to 0. -/
theorem min_max_seeded_extremal (dz : Value) (handle : Nat) (store : Store)
    (qs : List ℚ) :
    (Min.init dz handle store) handle = dz
  ∧ (Max.init dz handle store) handle = dz
  ∧ (Min.finalize handle
      (runUpdates .min handle (qs.map .vNum) (Min.init (.vNum 0) handle store))).1
      = .vNum (qs.foldl min 0)
  ∧ (Max.finalize handle
      (runUpdates .max handle (qs.map .vNum) (Max.init (.vNum 0) handle store))).1
      = .vNum (qs.foldl max 0)
  ∧ (qs.foldl min 0 ≤ 0 ∧ (∀ q ∈ qs, qs.foldl min 0 ≤ q)
      ∧ (qs.foldl min 0 = 0 ∨ qs.foldl min 0 ∈ qs))
  ∧ (0 ≤ qs.foldl max 0 ∧ (∀ q ∈ qs, q ≤ qs.foldl max 0)
      ∧ (qs.foldl max 0 = 0 ∨ qs.foldl max 0 ∈ qs))
  ∧ ((Max.finalize handle
      (runUpdates .max handle ([10, 20, 5].map .vNum) (Max.init (.vNum 0) handle store))).1
      = .vNum 20
    ∧ (Min.finalize handle
      (runUpdates .min handle ([10, 20, 5].map .vNum) (Min.init (.vNum 0) handle store))).1
      = .vNum 0) := by
  have hmin0 : (Min.init (.vNum 0) handle store) handle = .vNum 0 := by
    simp [Min.init]
  have hmax0 : (Max.init (.vNum 0) handle store) handle = .vNum 0 := by
    simp [Max.init]
  refine ⟨by simp [Min.init], by simp [Max.init], ?_, ?_, ?_, ?_, ?_, ?_⟩
  · simp [Min.finalize, min_run_slot qs _ handle 0 hmin0]
  · simp [Max.finalize, max_run_slot qs _ handle 0 hmax0]
  · exact ⟨foldl_min_le_init qs 0, fun q hq => foldl_min_le_mem qs 0 q hq,
      foldl_min_eq_or_mem qs 0⟩
  · exact ⟨foldl_max_init_le qs 0, fun q hq => foldl_max_mem_le qs 0 q hq,
      foldl_max_eq_or_mem qs 0⟩
  · have h := max_run_slot [10, 20, 5] _ handle 0 hmax0
    simp only [Max.finalize, h]
    decide
  · have h := min_run_slot [10, 20, 5] _ handle 0 hmin0
    simp only [Min.finalize, h]
    decide

/-- Witness for C1 at the concrete group 10, 20, 5 with handle 0 and an
empty store. -/
theorem min_max_seeded_extremal_witness :
    (Max.finalize 0
      (runUpdates .max 0 ([10, 20, 5].map .vNum) (Max.init (.vNum 0) 0 emptyStore))).1
      = .vNum 20
  ∧ (Min.finalize 0
      (runUpdates .min 0 ([10, 20, 5].map .vNum) (Min.init (.vNum 0) 0 emptyStore))).1
      = .vNum 0 :=
  (min_max_seeded_extremal (.vNum 0) 0 emptyStore [10, 20, 5]).2.2.2.2.2.2

/-- C5: for the `Count` aggregator, `initialize` writes 0 into the slot,
every `update` increments the slot by exactly one whatever the row's operand
value is, and `finalize` after `N` updates returns exactly `N`. -/
theorem count_exact_group_size (vs : List Value) (handle : Nat)
    (store s : Store) (v : Value) (n : Int) (hn : s handle = .vInt n) :
    (Count.init handle store) handle = .vInt 0
  ∧ Count.update handle s v handle = .vInt (n + 1)
  ∧ (Count.finalize handle
      (runUpdates .count handle vs (Count.init handle store))).1 = .vInt vs.length := by
  have h0 : (Count.init handle store) handle = .vInt 0 := by simp [Count.init]
  refine ⟨h0, ?_, ?_⟩
  · simp [Count.update, hn, vIncr]
  · have h := count_run_slot vs _ handle 0 h0
    simp [Count.finalize, h]

/-- Witness for C5 on a group of three rows with unrelated operand values. -/
theorem count_exact_group_size_witness :
    (Count.finalize 0
      (runUpdates .count 0 [.vStr "a", .vNone, .vNum 7] (Count.init 0 emptyStore))).1
      = .vInt 3 :=
  (count_exact_group_size [.vStr "a", .vNone, .vNum 7] 0 emptyStore
    (Count.init 0 emptyStore) .vNone 0 (by simp [Count.init])).2.2

/-- C6: for the `First` and `Last` aggregators over an ordered, non-empty
sequence of updates with evaluated values `v1..vn`, `First` finalizes to
`v1` — provided `v1` is not the absent marker `None`, which is exactly the
slot's unset sentinel that `first` skips — ignoring every later update, and
`Last` finalizes to `vn`, each update overwriting the slot. -/
theorem first_last_first_and_last (v : Value) (vs : List Value) (handle : Nat)
    (store : Store) (hv : v ≠ .vNone) :
    (First.finalize handle
      (runUpdates .first handle (v :: vs) (First.init handle store))).1 = v
  ∧ (Last.finalize handle
      (runUpdates .last handle (v :: vs) (Last.init handle store))).1
      = vs.getLastD v := by
  constructor
  · have h0 : (First.init handle store) handle = .vNone := by simp [First.init]
    have hupd : aggUpdate .first handle (First.init handle store) v
        = storeSet (First.init handle store) handle v := by
      simp [aggUpdate, First.update, h0]
    have hne : (storeSet (First.init handle store) handle v) handle ≠ .vNone := by
      simpa using hv
    rw [runUpdates_cons, hupd, first_run_unchanged vs _ handle hne]
    simp [First.finalize]
  · have h := last_run_slot (v :: vs) (Last.init handle store) handle
    rw [Last.finalize, h]
    have h0 : (Last.init handle store) handle = .vNone := by simp [Last.init]
    rw [h0, List.getLastD_cons]

/-- Witness for C6 on the value sequence `"a", "b", "c"`. -/
theorem first_last_first_and_last_witness :
    (First.finalize 0
      (runUpdates .first 0 [.vStr "a", .vStr "b", .vStr "c"] (First.init 0 emptyStore))).1
      = .vStr "a"
  ∧ (Last.finalize 0
      (runUpdates .last 0 [.vStr "a", .vStr "b", .vStr "c"] (Last.init 0 emptyStore))).1
      = .vStr "c" :=
  first_last_first_and_last (.vStr "a") [.vStr "b", .vStr "c"] 0 emptyStore (by decide)

/-- C8: the finalized value of the numeric `Sum` aggregator does not depend
on the order of the updates — for permuted update sequences the finalized
values coincide — and equals the sum of the updated values. -/
theorem sum_order_independent (qs qs' : List ℚ) (hperm : qs.Perm qs')
    (handle : Nat) (store : Store) :
    (Sum.finalize handle
      (runUpdates .sum handle (qs.map .vNum) (Sum.init (.vNum 0) handle store))).1
      = (Sum.finalize handle
        (runUpdates .sum handle (qs'.map .vNum) (Sum.init (.vNum 0) handle store))).1
  ∧ (Sum.finalize handle
      (runUpdates .sum handle (qs.map .vNum) (Sum.init (.vNum 0) handle store))).1
      = .vNum qs.sum := by
  have h0 : (Sum.init (.vNum 0) handle store) handle = .vNum 0 := by simp [Sum.init]
  have h1 := sum_run_slot qs _ handle 0 h0
  have h2 := sum_run_slot qs' _ handle 0 h0
  constructor
  · simp [Sum.finalize, h1, h2, hperm.sum_eq]
  · simp [Sum.finalize, h1]

/-- Witness for C8 on the group 10, 20, 5 against its rotation 5, 10, 20:
both orders finalize to 35. -/
theorem sum_order_independent_witness :
    (Sum.finalize 0
      (runUpdates .sum 0 ([10, 20, 5].map .vNum) (Sum.init (.vNum 0) 0 emptyStore))).1
      = (Sum.finalize 0
        (runUpdates .sum 0 ([5, 10, 20].map .vNum) (Sum.init (.vNum 0) 0 emptyStore))).1
  ∧ (Sum.finalize 0
      (runUpdates .sum 0 ([10, 20, 5].map .vNum) (Sum.init (.vNum 0) 0 emptyStore))).1
      = .vNum ([10, 20, 5] : List ℚ).sum :=
  sum_order_independent [10, 20, 5] [5, 10, 20] (by decide) 0 emptyStore

/-- C9: for every aggregator kind and every store, `initialize` and `update`
write only the slot `store[self.handle]` — every other slot is unchanged —
and `finalize` writes no slot at all. -/
theorem aggregator_frame (k : AggKind) (dz v : Value) (handle j : Nat)
    (store : Store) (hj : j ≠ handle) :
    aggInit k dz handle store j = store j
  ∧ aggUpdate k handle store v j = store j
  ∧ (aggFinalize k handle store).2 = store := by
  refine ⟨?_, ?_, ?_⟩
  · cases k <;>
      simp [aggInit, Count.init, Sum.init, SumBase.init, First.init, Last.init,
        Min.init, Max.init, hj]
  · cases k <;>
      simp only [aggUpdate, Count.update, Sum.update, SumAmount.update,
        SumPosition.update, SumInventory.update, First.update, Last.update,
        Min.update, Max.update] <;>
      (try split) <;> simp [hj]
  · cases k <;> rfl

/-- Witness for C9: the `Count` aggregator at handle 0 leaves slot 1 alone. -/
theorem aggregator_frame_witness :
    aggInit .count .vNone 0 emptyStore 1 = emptyStore 1
  ∧ aggUpdate .count 0 emptyStore (.vNum 3) 1 = emptyStore 1
  ∧ (aggFinalize .count 0 emptyStore).2 = emptyStore :=
  aggregator_frame .count .vNone (.vNum 3) 0 1 emptyStore (by decide)

/-- C4: in the aggregate registry, resolving `sum` whose first operand has
static type `Amount`, `Position` or `Inventory` yields the specialized
constructor (`SumAmount`, `SumPosition`, `SumInventory`), each of which
fixes the node's output type to `Inventory`; resolving `sum` at any other
numeric operand type falls back to the bare-name generic `Sum`, whose
output type equals the operand's type. -/
theorem sum_overload_resolution (ty : DType) (hty : sumIntypes ty = true) :
    resolveFunction AGGREGATOR_FUNCTIONS "sum" .tAmount = some .ctorSumAmount
  ∧ ctorOutputType .ctorSumAmount .tAmount = .tInventory
  ∧ resolveFunction AGGREGATOR_FUNCTIONS "sum" .tPosition = some .ctorSumPosition
  ∧ ctorOutputType .ctorSumPosition .tPosition = .tInventory
  ∧ resolveFunction AGGREGATOR_FUNCTIONS "sum" .tInventory = some .ctorSumInventory
  ∧ ctorOutputType .ctorSumInventory .tInventory = .tInventory
  ∧ resolveFunction AGGREGATOR_FUNCTIONS "sum" ty = some .ctorSum
  ∧ ctorOutputType .ctorSum ty = ty := by
  refine ⟨by decide, rfl, by decide, rfl, by decide, rfl, ?_, rfl⟩
  cases ty <;> first | exact absurd hty (by decide) | decide

/-- Witness for C4 at the numeric operand type `Decimal`. -/
theorem sum_overload_resolution_witness :
    resolveFunction AGGREGATOR_FUNCTIONS "sum" .tAmount = some .ctorSumAmount
  ∧ ctorOutputType .ctorSumAmount .tAmount = .tInventory
  ∧ resolveFunction AGGREGATOR_FUNCTIONS "sum" .tPosition = some .ctorSumPosition
  ∧ ctorOutputType .ctorSumPosition .tPosition = .tInventory
  ∧ resolveFunction AGGREGATOR_FUNCTIONS "sum" .tInventory = some .ctorSumInventory
  ∧ ctorOutputType .ctorSumInventory .tInventory = .tInventory
  ∧ resolveFunction AGGREGATOR_FUNCTIONS "sum" .tNum = some .ctorSum
  ∧ ctorOutputType .ctorSum .tNum = .tNum :=
  sum_overload_resolution .tNum (by decide)

/-- C7: on a posting whose position carries no cost, the `cost_number`
column evaluates to the numeric zero and the `cost_currency` column to the
empty string — never to an absent marker, and without failing (both
accessors are total functions). -/
theorem cost_columns_no_cost (p : Posting) (h : p.position.lot.cost = none) :
    CostNumberColumn p = .vNum 0 ∧ CostCurrencyColumn p = .vStr "" := by
  constructor <;> simp [CostNumberColumn, CostCurrencyColumn, h]

/-- Witness for C7 on a concrete cost-less posting. -/
theorem cost_columns_no_cost_witness :
    CostNumberColumn postingAbsentFields = .vNum 0
  ∧ CostCurrencyColumn postingAbsentFields = .vStr "" :=
  cost_columns_no_cost postingAbsentFields rfl

/-- C10: `has_account` is registered (as `MatchAccount`) only in the entries
environment; evaluated on a non-`Transaction` row context it returns `False`
whatever its operand evaluates to, and on a `Transaction` it returns `True`
iff some posting's account matches the operand pattern case-insensitively. -/
theorem has_account_semantics (operandEval : Entry → String) (e : Entry)
    (t : Transaction) (pat : String) (he : e.isTxn = false) :
    MatchAccount operandEval e = false
  ∧ (MatchAccount (fun _ => pat) (.txn t) = true
      ↔ ∃ leg ∈ t.postings, searchIgnoreCase pat leg.account = true)
  ∧ lookupKey entriesEnvFunctions (.bare "has_account") = some .ctorMatchAccount
  ∧ lookupKey postingsEnvFunctions (.bare "has_account") = none
  ∧ lookupKey targetsEnvFunctions (.bare "has_account") = none := by
  refine ⟨?_, ?_, by decide, by decide, by decide⟩
  · cases e with
    | txn t' => simp [Entry.isTxn] at he
    | other name s d => rfl
  · simp [MatchAccount]

/-- Witness for C10: a non-transaction directive yields `False`, and the
example transaction matches the pattern `CASH` case-insensitively. -/
theorem has_account_semantics_witness :
    MatchAccount (fun _ => "CASH") (.other "open" sampleSource sampleDate) = false
  ∧ (MatchAccount (fun _ => "CASH") (.txn txnAbsentFields) = true
      ↔ ∃ leg ∈ txnAbsentFields.postings, searchIgnoreCase "CASH" leg.account = true) :=
  ⟨(has_account_semantics (fun _ => "CASH") (.other "open" sampleSource sampleDate)
      txnAbsentFields "CASH" rfl).1,
   (has_account_semantics (fun _ => "CASH") (.other "open" sampleSource sampleDate)
      txnAbsentFields "CASH" rfl).2.1⟩

/-- C2 (divergence): every posting-scoped accessor for a parent-entry field
returns exactly the corresponding entry-scoped accessor applied to the
posting's parent entry — for date, flag, payee, tags, links, filename,
lineno, id and type unconditionally, but for narration only when the
parent's narration is present: on a posting whose parent has no narration,
`NarrationColumn` returns `None` while `NarrationEntryColumn` returns `''`,
so the claimed identity fails there. -/
theorem posting_entry_accessor_agreement :
    (∀ p : Posting,
        DateColumn p = DateEntryColumn (.txn p.entry)
      ∧ FlagColumn p = FlagEntryColumn (.txn p.entry)
      ∧ PayeeColumn p = PayeeEntryColumn (.txn p.entry)
      ∧ TagsColumn p = TagsEntryColumn (.txn p.entry)
      ∧ LinksColumn p = LinksEntryColumn (.txn p.entry)
      ∧ FilenameColumn p = FilenameEntryColumn (.txn p.entry)
      ∧ LineNoColumn p = LineNoEntryColumn (.txn p.entry)
      ∧ IdColumn p = IdEntryColumn (.txn p.entry)
      ∧ TypeColumn p = TypeEntryColumn (.txn p.entry)
      ∧ (p.entry.narration ≠ none →
          NarrationColumn p = NarrationEntryColumn (.txn p.entry)))
  ∧ postingAbsentFields.entry.narration = none
  ∧ NarrationColumn postingAbsentFields = .vNone
  ∧ NarrationEntryColumn (.txn postingAbsentFields.entry) = .vStr ""
  ∧ NarrationColumn postingAbsentFields
      ≠ NarrationEntryColumn (.txn postingAbsentFields.entry) := by
  refine ⟨?_, rfl, rfl, rfl, by decide⟩
  intro p
  refine ⟨rfl, rfl, rfl, rfl, rfl, rfl, rfl, rfl, rfl, ?_⟩
  intro hn
  cases hna : p.entry.narration with
  | none => exact absurd hna hn
  | some s =>
      simp [NarrationColumn, NarrationEntryColumn, optStrValue, orEmptyString, hna]

/-- Witness for C2 on a posting whose parent has a narration: the posting
and entry narration accessors then agree. -/
theorem posting_entry_accessor_agreement_witness :
    DateColumn postingFullFields = DateEntryColumn (.txn postingFullFields.entry)
  ∧ NarrationColumn postingFullFields
      = NarrationEntryColumn (.txn postingFullFields.entry) :=
  ⟨(posting_entry_accessor_agreement.1 postingFullFields).1,
   (posting_entry_accessor_agreement.1 postingFullFields).2.2.2.2.2.2.2.2.2
     (by decide)⟩

/-- C3 (divergence): an absent payee resolves to `''` and absent tags/links
to the empty set under both the entry-scoped and the posting-scoped
accessors, and an absent narration resolves to `''` under the entry-scoped
accessor — but the posting-scoped `NarrationColumn` returns the absent
marker `None` on a posting whose parent has no narration, violating the
claimed never-null convention at that one accessor. -/
theorem absent_optional_fields_empty :
    (∀ t : Transaction, t.payee = none → PayeeEntryColumn (.txn t) = .vStr "")
  ∧ (∀ t : Transaction, t.narration = none → NarrationEntryColumn (.txn t) = .vStr "")
  ∧ (∀ t : Transaction, t.tags = none → TagsEntryColumn (.txn t) = .vSet [])
  ∧ (∀ t : Transaction, t.links = none → LinksEntryColumn (.txn t) = .vSet [])
  ∧ (∀ p : Posting, p.entry.payee = none → PayeeColumn p = .vStr "")
  ∧ (∀ p : Posting, p.entry.tags = none → TagsColumn p = .vSet [])
  ∧ (∀ p : Posting, p.entry.links = none → LinksColumn p = .vSet [])
  ∧ postingAbsentFields.entry.narration = none
  ∧ NarrationColumn postingAbsentFields = .vNone := by
  refine ⟨?_, ?_, ?_, ?_, ?_, ?_, ?_, rfl, rfl⟩
  · intro t ht; simp [PayeeEntryColumn, orEmptyString, ht]
  · intro t ht; simp [NarrationEntryColumn, orEmptyString, ht]
  · intro t ht; simp [TagsEntryColumn, orEmptySet, ht]
  · intro t ht; simp [LinksEntryColumn, orEmptySet, ht]
  · intro p hp; simp [PayeeColumn, orEmptyString, hp]
  · intro p hp; simp [TagsColumn, orEmptySet, hp]
  · intro p hp; simp [LinksColumn, orEmptySet, hp]

/-- Witness for C3 at the concrete all-absent transaction and its posting. -/
theorem absent_optional_fields_empty_witness :
    PayeeEntryColumn (.txn txnAbsentFields) = .vStr ""
  ∧ NarrationColumn postingAbsentFields = .vNone :=
  ⟨absent_optional_fields_empty.1 txnAbsentFields rfl,
   absent_optional_fields_empty.2.2.2.2.2.2.2.2⟩

end BQ
